import Mathlib

/-
Verification of the SC1000 playback core (src/software/dicer.c and
src/software/player.c) against its natural-language specification.

C `double` values are modelled as exact rationals (ℚ); the irrational
equal-tempered pitch multiplier is modelled over ℝ.  Machine integers are
modelled as ℕ/ℤ with explicit wrap-around where the C code relies on it.
Deck operations invoked by the controller dispatch are recorded as a trace
(a list of `DeckOp`), in invocation order.
-/

namespace SC1000

/-! ## Dicer controller (src/software/dicer.c) -/

/-- Action codes, `#define`s at the top of dicer.c. -/
def CUE : ℕ := 0

/-- LOOP action code. -/
def LOOP : ℕ := 1

/-- ROLL action code. -/
def ROLL : ℕ := 2

/-- NOTE action code. -/
def NOTE : ℕ := 3

/-- A deck operation invoked by the dispatch path.  `setNominalPitch b`
records that `d->player.nominal_pitch` was assigned the equal-tempered
multiplier for button `b`. -/
inductive DeckOp where
  | setCue (button : ℕ)
  | unsetCue (button : ℕ)
  | punchIn (button : ℕ)
  | punchOut
  | setNominalPitch (button : ℕ)
deriving DecidableEq

/-- Trace semantics of `event_decoded` (dicer.c lines 94-131): the list of
deck operations it performs, in order.  `shift && on` first unsets the cue;
`shift` then returns early; otherwise CUE press sets a cue, LOOP press/release
punches in/out, and NOTE assigns the nominal pitch. -/
def event_decoded (action : ℕ) (shift : Bool) (button : ℕ) (pressed : Bool) :
    List DeckOp :=
  (if shift = true ∧ pressed = true then [DeckOp.unsetCue button] else []) ++
  (if shift = true then []
   else
    (if action = CUE ∧ pressed = true then [DeckOp.setCue button] else []) ++
    (if action = LOOP then
       (if pressed = true then [DeckOp.punchIn button] else [DeckOp.punchOut])
     else []) ++
    (if action = NOTE then [DeckOp.setNominalPitch button] else []))

/-- A raw 3-byte MIDI message `(status, data1, data2)`. -/
structure Midi where
  status : ℕ
  data1 : ℕ
  data2 : ℕ
deriving DecidableEq

/-- Result of the decoding phase of `event` (dicer.c lines 137-195): either
the message is ignored (an early `return`), or it yields the
`(action, shift, button, on)` tuple handed to `event_decoded`. -/
inductive Decoded where
  | ignored
  | act (action : ℕ) (shift : Bool) (button : ℕ) (pressed : Bool)
deriving DecidableEq

/-- Decoding phase of `event` (dicer.c lines 137-195).  The local variable
`shift` is never assigned on the NOTE path (status 0x90): the C code reads it
uninitialized.  The total embedding therefore takes the indeterminate stack
value as the explicit parameter `shiftInit` and passes it through unchanged on
that path.  On the CUE path (status 0x91) `shift` is assigned in every case
that does not return. -/
def decode (shiftInit : Bool) (buf : Midi) : Decoded :=
  let pressed : Bool := buf.data2 != 0
  if buf.status = 0x90 then
    Decoded.act NOTE shiftInit buf.data1 pressed
  else if buf.status = 0x91 then
    if buf.data1 = 0x24 ∨ buf.data1 = 0x25 ∨ buf.data1 = 0x26 ∨
        buf.data1 = 0x27 then
      Decoded.act CUE false (buf.data1 - 0x24) pressed
    else if buf.data1 = 0x28 ∨ buf.data1 = 0x29 ∨ buf.data1 = 0x30 ∨
        buf.data1 = 0x31 then
      Decoded.act CUE true (buf.data1 - 0x28) pressed
    else Decoded.ignored
  else Decoded.ignored

/-- Function `event` (dicer.c lines 137-198): decode the 3-byte message and dispatch
through `event_decoded`; an ignored message performs no deck operation. -/
def event (shiftInit : Bool) (buf : Midi) : List DeckOp :=
  match decode shiftInit buf with
  | Decoded.ignored => []
  | Decoded.act a sh b p => event_decoded a sh b p

/-- The value assigned to `d->player.nominal_pitch` on the NOTE path
(dicer.c line 128): `pow(pow(2, 1.0/12), button - 0x3C)`, modelled over ℝ. -/
noncomputable def nominal_pitch_of (button : ℕ) : ℝ :=
  ((2 : ℝ) ^ ((1 : ℝ) / 12)) ^ ((button : ℝ) - 60)

/-! ## Player (src/software/player.c) -/

/-- Constant `SKIP_THRESHOLD` (player.c line 45): `1.0 / 8`. -/
def SKIP_THRESHOLD : ℚ := 1 / 8

/-- Constant `SYNC_TIME` (player.c line 37): `1.0 / 2`. -/
def SYNC_TIME : ℚ := 1 / 2

/-- Constant `SYNC_PITCH` (player.c line 38): `0.05`. -/
def SYNC_PITCH : ℚ := 5 / 100

/-- The player state fields read or written by the code under verification
(struct player, from its uses in player.c).  The bound track is flattened
into the state: `trackLength`, `trackRate` and the two per-channel sample
accessors (PLAYER_CHANNELS = 2, interleaving `pcm + 2*s + c`).  The input
queue `pl->scqueue` is consumed only through the external `InterpolateQueue`
call, one poll per rendered sample; it is modelled as the per-sample list of
its results: `some target` when the call yields an interpolated target
position, `none` when it reports no data.  The global LFSR dither state
(static `x` in `dither`) is carried as `ditherX`. -/
structure PlayerState where
  sample_dt : ℚ
  position : ℚ
  offset : ℚ
  target_position : ℚ
  last_difference : ℚ
  pitch : ℚ
  sync_pitch : ℚ
  last_position : ℚ
  timestamp : ℚ
  samplesSoFar : ℕ
  recalibrate : Bool
  timecode_control : Bool
  trackLength : ℕ
  trackRate : ℕ
  trackLeft : ℕ → ℤ
  trackRight : ℕ → ℤ
  queue : List (Option ℚ)
  ditherX : ℕ

/-- Function `calibrate_to_timecode_position` (player.c lines 314-319): shift `offset`
by the drift and snap `position` to `target_position`. -/
def calibrate_to_timecode_position (pl : PlayerState) : PlayerState :=
  { pl with
      offset := pl.offset + pl.target_position - pl.position,
      position := pl.target_position }

/-- Function `retarget` (player.c lines 321-353): recalibrate if flagged, record the
drift in `last_difference`, then either hard-seek (`|diff| > SKIP_THRESHOLD`)
or recompute the advisory `sync_pitch` (`|pitch| > SYNC_PITCH`). -/
def retarget (pl : PlayerState) : PlayerState :=
  let pl1 :=
    if pl.recalibrate then
      { calibrate_to_timecode_position pl with recalibrate := false }
    else pl
  let diff := pl1.position - pl1.target_position
  let pl2 := { pl1 with last_difference := diff }
  if |diff| > SKIP_THRESHOLD then
    { pl2 with position := pl2.target_position }
  else if |pl2.pitch| > SYNC_PITCH then
    { pl2 with sync_pitch := pl2.pitch / (diff / SYNC_TIME + pl2.pitch) }
  else pl2

/-- The C cast `(int)` / `(signed short)` applied to a double: truncation
toward zero. -/
def truncInt (q : ℚ) : ℤ :=
  if q < 0 then -⌊-q⌋ else ⌊q⌋

/-- The 4-sample window set-up of `build_pcm` (player.c lines 444-448):
`sa = (int)sample; if (sample < 0.0) sa--; f = sample - sa; sa--;`.
Returns the first tap index `sa` and the fractional offset `f`. -/
def windowOrigin (sample : ℚ) : ℤ × ℚ :=
  let sa0 := truncInt sample
  let sa1 := if sample < 0 then sa0 - 1 else sa0
  let f := sample - (sa1 : ℚ)
  (sa1 - 1, f)

/-- Tap fetch of `build_pcm` (player.c lines 450-466): an index outside
`[0, track->length)` contributes silence, otherwise the track sample. -/
def tapSample (len : ℕ) (chan : ℕ → ℤ) (sa : ℤ) : ℤ :=
  if sa < 0 ∨ (len : ℤ) ≤ sa then 0 else chan sa.toNat

/-- Function `cubic_interpolate` (player.c lines 63-75); `y0..y3` are the four taps
`y[0]..y[3]` (exact in `signed long`), `mu` the fractional position. -/
def cubic_interpolate (y0 y1 y2 y3 : ℤ) (mu : ℚ) : ℚ :=
  let mu2 := mu * mu
  let a0 : ℤ := y3 - y2 - y0 + y1
  let a1 : ℤ := y0 - y1 - a0
  let a2 : ℤ := y2 - y0
  let a3 : ℤ := y1
  mu * mu2 * (a0 : ℚ) + mu2 * (a1 : ℚ) + mu * (a2 : ℚ) + (a3 : ℚ)

/-- Function `dither` (player.c lines 81-98): one draw of the 32-bit maximal-length
LFSR.  Takes the state `x`, returns the new state and the value in
`[-1/2, 1/2)` built from the fixed 12-bit subset. -/
def ditherStep (x : ℕ) : ℕ × ℚ :=
  let bit := (x ^^^ (x >>> 1) ^^^ (x >>> 21) ^^^ (x >>> 31)) &&& 1
  let x1 := ((x <<< 1) ||| bit) % 2 ^ 32
  let v := (x1 &&& 0xf) ||| ((x1 &&& 0xf0000) >>> 12) |||
      ((x1 &&& 0x0f000000) >>> 16)
  (x1, (v : ℚ) / 4096 - 1 / 2)

/-- Clamp-and-store of `build_pcm` (player.c lines 477-488): clamp to
`SHRT_MIN..SHRT_MAX`, otherwise the `(signed short)` cast truncates. -/
def clampShort (v : ℚ) : ℤ :=
  if v > 32767 then 32767
  else if v < -32768 then -32768
  else truncInt v

/-- First phase of the `build_pcm` loop body (player.c lines 402-438): poll
the input queue once.  On data, `position` snaps to the interpolated target,
`pitch` becomes the position delta, `last_position` follows and the virtual
`timestamp` advances by `sample_dt`.  On no data (or an exhausted queue
model), dead reckoning: `position += pitch`. -/
def advancePosition (pl : PlayerState) : PlayerState :=
  match pl.queue with
  | some tp :: rest =>
      { pl with
          position := tp,
          pitch := tp - pl.last_position,
          last_position := tp,
          timestamp := pl.timestamp + pl.sample_dt,
          queue := rest }
  | none :: rest =>
      { pl with position := pl.position + pl.pitch, queue := rest }
  | [] => { pl with position := pl.position + pl.pitch }

/-- The source-track sample coordinate used by `build_pcm` (player.c line
442): `sample = pl->position * 48000` — the literal constant 48000, not the
track's native rate. -/
def sampleCoord (pl : PlayerState) : ℚ :=
  pl.position * 48000

/-- The coordinate mapping as the specification words it, for comparison
with `sampleCoord`: "Map `position` to a source-track sample coordinate via
the track's native sample rate." -/
def sampleCoord_spec (position : ℚ) (rate : ℕ) : ℚ :=
  position * (rate : ℚ)

/-- One interleaved stereo output frame. -/
structure Frame where
  left : ℤ
  right : ℤ
deriving DecidableEq

/-- One iteration of the `build_pcm` loop (player.c lines 395-494): advance
the position, bump `samplesSoFar`, build the 4-tap window around
`position * 48000`, cubic-interpolate each channel at the fractional offset,
scale by `vol = 0.5`, add one dither draw per channel (channel 0 first), and
clamp to 16-bit. -/
def renderSample (pl : PlayerState) : PlayerState × Frame :=
  let pl1 := advancePosition pl
  let pl2 := { pl1 with samplesSoFar := pl1.samplesSoFar + 1 }
  let sample := sampleCoord pl2
  let base := (windowOrigin sample).1
  let f := (windowOrigin sample).2
  let yl := fun q : ℕ => tapSample pl2.trackLength pl2.trackLeft (base + q)
  let yr := fun q : ℕ => tapSample pl2.trackLength pl2.trackRight (base + q)
  let x1 := (ditherStep pl2.ditherX).1
  let d1 := (ditherStep pl2.ditherX).2
  let x2 := (ditherStep x1).1
  let d2 := (ditherStep x1).2
  let vL := (1 / 2 : ℚ) * cubic_interpolate (yl 0) (yl 1) (yl 2) (yl 3) f + d1
  let vR := (1 / 2 : ℚ) * cubic_interpolate (yr 0) (yr 1) (yr 2) (yr 3) f + d2
  ({ pl2 with ditherX := x2 }, ⟨clampShort vL, clampShort vR⟩)

/-- Function `build_pcm` (player.c lines 386-495): render `samples` frames,
interleaving the two channels in the output list (`pcm + 2*s + c`). -/
def build_pcm : PlayerState → ℕ → PlayerState × List ℤ
  | pl, 0 => (pl, [])
  | pl, n + 1 =>
      let pl1 := (renderSample pl).1
      let fr := (renderSample pl).2
      let rest := build_pcm pl1 n
      (rest.1, fr.left :: fr.right :: rest.2)

/-- Function `player_collect` (player.c lines 505-517): try the spinlock without
blocking.  `lockHeld` is whether another thread holds `pl->lock` at the call.
On contention the body does nothing — buffer and player state are returned
untouched (the commented-out `build_silence` call included).  On success the
block is rendered and the lock released; the returned `Bool` is whether the
lock is still held by someone else after the call. -/
def player_collect (lockHeld : Bool) (pl : PlayerState) (pcm : List ℤ)
    (totalSamples : ℕ) : Bool × PlayerState × List ℤ :=
  if lockHeld then (true, pl, pcm)
  else
    let r := build_pcm pl totalSamples
    (false, r.1, r.2)

/-! ## Concrete states used by witnesses and counterexamples -/

/-- A concrete player state with drift `|position - target_position| = 1`,
`recalibrate` clear: exercises the hard-seek branch of `retarget`. -/
def retargetWitnessState : PlayerState where
  sample_dt := 1 / 48000
  position := 1
  offset := 0
  target_position := 0
  last_difference := 0
  pitch := 2
  sync_pitch := 3
  last_position := 0
  timestamp := 0
  samplesSoFar := 0
  recalibrate := false
  timecode_control := false
  trackLength := 4
  trackRate := 48000
  trackLeft := fun _ => 0
  trackRight := fun _ => 0
  queue := []
  ditherX := 0xbeefface

/-- A concrete player state whose queue yields no entry for two samples:
exercises the dead-reckoning branch of `build_pcm`. -/
def deadReckonWitnessState : PlayerState where
  sample_dt := 1 / 48000
  position := 1 / 4
  offset := 0
  target_position := 0
  last_difference := 0
  pitch := 1 / 2
  sync_pitch := 1
  last_position := 0
  timestamp := 0
  samplesSoFar := 0
  recalibrate := false
  timecode_control := false
  trackLength := 4
  trackRate := 48000
  trackLeft := fun _ => 0
  trackRight := fun _ => 0
  queue := [none, none]
  ditherX := 0xbeefface

/-- A concrete player state on a 44.1 kHz track at `position = 1`:
the code's coordinate mapping and the spec's disagree on it. -/
def rateWitnessState : PlayerState where
  sample_dt := 1 / 48000
  position := 1
  offset := 0
  target_position := 0
  last_difference := 0
  pitch := 0
  sync_pitch := 1
  last_position := 0
  timestamp := 0
  samplesSoFar := 0
  recalibrate := false
  timecode_control := false
  trackLength := 100000
  trackRate := 44100
  trackLeft := fun _ => 0
  trackRight := fun _ => 0
  queue := []
  ditherX := 0xbeefface

/-! ## Helper lemmas -/

/-- Every tuple `decode` hands to `event_decoded` carries action CUE or NOTE;
no status byte yields LOOP. -/
lemma decode_action_cue_or_note (s : Bool) (buf : Midi) (a : ℕ) (sh : Bool)
    (b : ℕ) (p : Bool) (h : decode s buf = Decoded.act a sh b p) :
    a = CUE ∨ a = NOTE := by
  simp only [decode] at h
  split_ifs at h <;> cases h
  · right; rfl
  · left; rfl
  · left; rfl

/-- Dispatch `event_decoded` performs a punch operation only for the LOOP action. -/
lemma event_decoded_no_punch (a : ℕ) (sh : Bool) (b : ℕ) (p : Bool)
    (ha : a ≠ LOOP) (n : ℕ) :
    DeckOp.punchIn n ∉ event_decoded a sh b p ∧
      DeckOp.punchOut ∉ event_decoded a sh b p := by
  unfold event_decoded
  split_ifs <;> simp_all

/-- State projections of `renderSample`: the second phase of the loop body
touches only `samplesSoFar` and the dither state. -/
lemma renderSample_fst (pl : PlayerState) :
    (renderSample pl).1 =
      { advancePosition pl with
          samplesSoFar := (advancePosition pl).samplesSoFar + 1,
          ditherX :=
            (ditherStep (ditherStep (advancePosition pl).ditherX).1).1 } := by
  rfl

/-- Dead reckoning step: with no queue data the position advances by the
last known pitch and the pitch itself is unchanged. -/
lemma advancePosition_none (pl : PlayerState) (rest : List (Option ℚ))
    (h : pl.queue = none :: rest) :
    advancePosition pl =
      { pl with position := pl.position + pl.pitch, queue := rest } := by
  unfold advancePosition
  rw [h]

/-- Step `advancePosition` never reads the track's native rate. -/
lemma advancePosition_trackRate (pl : PlayerState) (r : ℕ) :
    advancePosition { pl with trackRate := r } =
      { advancePosition pl with trackRate := r } := by
  unfold advancePosition
  rcases hq : pl.queue with _ | ⟨_ | tp, rest⟩ <;> simp [hq]

/-- The window origin and fractional offset recombine to the raw sample
coordinate: the 4-tap window of `build_pcm` is centred between its second
and third taps at exactly the coordinate `sample`. -/
lemma windowOrigin_recombine (sample : ℚ) :
    ((windowOrigin sample).1 : ℚ) + 1 + (windowOrigin sample).2 = sample := by
  unfold windowOrigin
  by_cases h : sample < 0 <;> simp [h]

/-! ## Claims -/

/-- Claim C1, counterexample: the CUE-class message `(0x91, 0x30, 0x7F)` lies
in the shifted range, yet the decoder produces button index 8 — not a member
of the unshifted button range `{0, 1, 2, 3}` — refuting the claim that every
shifted `data1` maps to the button index of its unshifted counterpart. -/
theorem decode_shifted_button_outside_range :
    decode false ⟨0x91, 0x30, 0x7F⟩ = Decoded.act CUE true 8 true ∧
      (8 : ℕ) ∉ ([0, 1, 2, 3] : List ℕ) := by
  exact ⟨rfl, by decide⟩

/-- Claim C1, amended: every shifted `data1` value decodes with
`shift = true` and button index `data1 - 0x28`; for `0x28` and `0x29` that
is 0 and 1 (the unshifted counterparts), but for the literals `0x30` and
`0x31` it is 8 and 9, outside the unshifted button range. -/
theorem decode_shifted_range_amended :
    ∀ (s : Bool) (d2 : ℕ),
      decode s ⟨0x91, 0x28, d2⟩ = Decoded.act CUE true 0 (d2 != 0) ∧
      decode s ⟨0x91, 0x29, d2⟩ = Decoded.act CUE true 1 (d2 != 0) ∧
      decode s ⟨0x91, 0x30, d2⟩ = Decoded.act CUE true 8 (d2 != 0) ∧
      decode s ⟨0x91, 0x31, d2⟩ = Decoded.act CUE true 9 (d2 != 0) := by
  intro s d2
  exact ⟨rfl, rfl, rfl, rfl⟩

/-- Claim C5: the NOTE-class pitch formula is the equal-tempered
`2^((button - 60)/12)` — `nominal_pitch_of 60 = 1`, `72 ↦ 2`, `48 ↦ 1/2` —
but the code reads the uninitialized `shift` local on the 0x90 path, so the
update is not guaranteed to run: at the failing input `(0x90, 0x3C, 0x7F)`
with residual `shift = true`, dispatch invokes `unsetCue(0x3C)` and never
assigns the nominal pitch, while with residual `shift = false` it performs
the assignment the claim describes. -/
theorem note_pitch_update_depends_on_uninitialized_shift :
    event true ⟨0x90, 0x3C, 0x7F⟩ = [DeckOp.unsetCue 60] ∧
    event false ⟨0x90, 0x3C, 0x7F⟩ = [DeckOp.setNominalPitch 60] ∧
    nominal_pitch_of 60 = 1 ∧
    nominal_pitch_of 72 = 2 ∧
    nominal_pitch_of 48 = 1 / 2 := by
  refine ⟨by decide, by decide, ?_, ?_, ?_⟩
  · rw [nominal_pitch_of, show ((60 : ℕ) : ℝ) - 60 = 0 by norm_num,
      Real.rpow_zero]
  · rw [nominal_pitch_of, ← Real.rpow_mul (by norm_num : (0:ℝ) ≤ 2),
      show (1 : ℝ) / 12 * (((72 : ℕ) : ℝ) - 60) = 1 by norm_num,
      Real.rpow_one]
  · rw [nominal_pitch_of, ← Real.rpow_mul (by norm_num : (0:ℝ) ≤ 2),
      show (1 : ℝ) / 12 * (((48 : ℕ) : ℝ) - 60) = -1 by norm_num,
      show (-1 : ℝ) = ((-1 : ℤ) : ℝ) by norm_num, Real.rpow_intCast]
    norm_num

/-- Claim C6: for every action class and button, a shifted press performs
exactly `unsetCue(button)` and nothing else, and a shifted release performs
no deck operation at all. -/
theorem shifted_dispatch_exact :
    ∀ (action button : ℕ),
      event_decoded action true button true = [DeckOp.unsetCue button] ∧
      event_decoded action true button false = [] := by
  intro action button
  constructor <;> simp [event_decoded]

/-- Claim C9: the decoder passes its local `shift` flag to dispatch without
assigning it on the NOTE path — in the total embedding the indeterminate
value `s` flows through unchanged for every status-0x90 message — so the
nominal-pitch update is not guaranteed: with residual `shift = true` and
nonzero data2, `unsetCue` is invoked with a button index as large as 127. -/
theorem note_shift_uninitialized :
    (∀ (s : Bool) (b d2 : ℕ),
      decode s ⟨0x90, b, d2⟩ = Decoded.act NOTE s b (d2 != 0)) ∧
    event true ⟨0x90, 127, 1⟩ = [DeckOp.unsetCue 127] ∧
    event false ⟨0x90, 127, 1⟩ = [DeckOp.setNominalPitch 127] := by
  exact ⟨fun s b d2 => rfl, by decide, by decide⟩

/-- Claim C10: no 3-byte MIDI message ever decodes to the LOOP action class,
so no sequence of wire messages makes the dispatch path invoke `punchIn` or
`punchOut` — for any residual value of the uninitialized shift flag. -/
theorem no_wire_message_punches :
    ∀ (s : Bool) (st d1 d2 n : ℕ),
      DeckOp.punchIn n ∉ event s ⟨st, d1, d2⟩ ∧
      DeckOp.punchOut ∉ event s ⟨st, d1, d2⟩ := by
  intro s st d1 d2 n
  unfold event
  cases hd : decode s ⟨st, d1, d2⟩ with
  | ignored => simp
  | act a sh b p =>
      have ha := decode_action_cue_or_note s ⟨st, d1, d2⟩ a sh b p hd
      have hne : a ≠ LOOP := by
        rcases ha with h | h <;> subst h <;> decide
      exact event_decoded_no_punch a sh b p hne n

/-- Claim C7: cubic interpolation evaluated at fractional position
`mu = 0` reproduces the second tap `y1` exactly, for every 4-tuple of
samples (before dither and clamping). -/
theorem cubic_interpolate_at_zero :
    ∀ (y0 y1 y2 y3 : ℤ), cubic_interpolate y0 y1 y2 y3 0 = (y1 : ℚ) := by
  intro y0 y1 y2 y3
  simp [cubic_interpolate]

/-- Claim C4: when `recalibrate` is clear and the drift
`|position - target_position|` exceeds 1/8 second, `retarget` hard-seeks —
`position` becomes exactly `target_position` — for every pitch value, and
`sync_pitch` is left unchanged. -/
theorem retarget_hard_seek :
    ∀ pl : PlayerState,
      pl.recalibrate = false →
      |pl.position - pl.target_position| > 1 / 8 →
      (retarget pl).position = pl.target_position ∧
      (retarget pl).sync_pitch = pl.sync_pitch := by
  intro pl h1 h2
  have h2' : |pl.position - pl.target_position| > SKIP_THRESHOLD := by
    simpa [SKIP_THRESHOLD] using h2
  constructor <;> simp [retarget, h1, h2']

/-- Claim C4, witness: the hard-seek branch evaluated on a concrete drifted
state. -/
theorem retarget_hard_seek_witness :
    retargetWitnessState.recalibrate = false ∧
    |retargetWitnessState.position - retargetWitnessState.target_position| >
      1 / 8 ∧
    (retarget retargetWitnessState).position =
      retargetWitnessState.target_position ∧
    (retarget retargetWitnessState).sync_pitch =
      retargetWitnessState.sync_pitch := by
  refine ⟨rfl, by norm_num [retargetWitnessState], ?_, ?_⟩
  · exact (retarget_hard_seek retargetWitnessState rfl
      (by norm_num [retargetWitnessState])).1
  · exact (retarget_hard_seek retargetWitnessState rfl
      (by norm_num [retargetWitnessState])).2

/-- Claim C3: over any run of `n` rendered samples during which the input
queue yields no entry, the position advances by exactly `n` times the pitch
held at the start of the run, and the pitch itself is unchanged — the
dead-reckoning extrapolation is the only mechanism moving the position. -/
theorem dead_reckoning_run :
    ∀ (pl : PlayerState) (n : ℕ) (rest : List (Option ℚ)),
      pl.queue = List.replicate n none ++ rest →
      (build_pcm pl n).1.position = pl.position + n * pl.pitch ∧
      (build_pcm pl n).1.pitch = pl.pitch := by
  intro pl n rest
  induction n generalizing pl with
  | zero => intro _; simp [build_pcm]
  | succ n ih =>
      intro h
      have hq : pl.queue = none :: (List.replicate n none ++ rest) := by
        simpa [List.replicate_succ] using h
      have hadv := advancePosition_none pl _ hq
      have h1 : ((renderSample pl).1).position = pl.position + pl.pitch := by
        simp [renderSample_fst, hadv]
      have h2 : ((renderSample pl).1).pitch = pl.pitch := by
        simp [renderSample_fst, hadv]
      have h3 : ((renderSample pl).1).queue =
          List.replicate n none ++ rest := by
        simp [renderSample_fst, hadv]
      obtain ⟨ih1, ih2⟩ := ih _ h3
      constructor
      · simp only [build_pcm]
        rw [ih1, h1, h2]
        push_cast
        ring
      · simp only [build_pcm]
        rw [ih2, h2]

/-- Claim C3, witness: a two-sample queue-empty run on a concrete state. -/
theorem dead_reckoning_run_witness :
    deadReckonWitnessState.queue = List.replicate 2 none ++ [] ∧
    (build_pcm deadReckonWitnessState 2).1.position =
      deadReckonWitnessState.position + 2 * deadReckonWitnessState.pitch ∧
    (build_pcm deadReckonWitnessState 2).1.pitch =
      deadReckonWitnessState.pitch := by
  refine ⟨rfl, ?_, ?_⟩
  · exact (dead_reckoning_run deadReckonWitnessState 2 [] rfl).1
  · exact (dead_reckoning_run deadReckonWitnessState 2 [] rfl).2

/-- Claim C2, counterexample: on a 44.1 kHz track at `position = 1` second,
`build_pcm` addresses source sample 48000 — the literal output-rate constant
— while mapping through the track's native rate, as the claim states, would
address sample 44100. -/
theorem sample_coordinate_ignores_track_rate :
    rateWitnessState.trackRate = 44100 ∧
    sampleCoord rateWitnessState = 48000 ∧
    sampleCoord_spec rateWitnessState.position rateWitnessState.trackRate =
      44100 ∧
    sampleCoord rateWitnessState ≠
      sampleCoord_spec rateWitnessState.position rateWitnessState.trackRate := by
  refine ⟨rfl, by norm_num [sampleCoord, rateWitnessState],
    by norm_num [sampleCoord_spec, rateWitnessState],
    by norm_num [sampleCoord, sampleCoord_spec, rateWitnessState]⟩

/-- Claim C2, amended: `build_pcm` maps the playback position to a source
coordinate by multiplying by the fixed constant 48000, independent of the
track's native rate: the 4-tap window recombines to `position * 48000`, and
the rendered frame is identical for any two values of `trackRate`. -/
theorem sample_coordinate_amended :
    ∀ (pl : PlayerState) (r r' : ℕ),
      sampleCoord pl = pl.position * 48000 ∧
      ((windowOrigin (sampleCoord pl)).1 : ℚ) + 1 +
        (windowOrigin (sampleCoord pl)).2 = pl.position * 48000 ∧
      (renderSample { pl with trackRate := r }).2 =
        (renderSample { pl with trackRate := r' }).2 := by
  intro pl r r'
  refine ⟨rfl, windowOrigin_recombine _, ?_⟩
  simp [renderSample, advancePosition_trackRate, sampleCoord]

/-- Claim C8: if the non-blocking lock acquisition of `player_collect` fails,
the call returns with the output buffer and the entire player state (hence
position, pitch, offset, timestamp and queue) unchanged; if it succeeds, the
block is rendered by `build_pcm` and the lock is released. -/
theorem collect_trylock_frame :
    ∀ (pl : PlayerState) (pcm : List ℤ) (n : ℕ),
      player_collect true pl pcm n = (true, pl, pcm) ∧
      player_collect false pl pcm n =
        (false, (build_pcm pl n).1, (build_pcm pl n).2) := by
  intro pl pcm n
  exact ⟨rfl, rfl⟩

end SC1000
